import Mathlib

/-!
Verification of the kimlab_datalogging thermocouple configuration and
timed-acquisition engine (src/kimlab_datalogging/03_my_thermocouple.py and
04_read_plot_thermocouples.py), as a shallow embedding: each Python function
is translated into a Lean definition of the same name, hardware side effects
(register writes, batched reads, timer and handle management) are made
explicit as data in the results, and read failures are an oracle
`read : Nat -> Except String (List Rat)` indexed by the tick number.
-/

namespace Kimlab

/-- Device-type constants, from the external LJM library constants used by the
source (`ljm.constants.dtT4`, `ljm.constants.dtT7`, `ljm.constants.dtT8`). -/
def dtT4 : Nat := 4

/-- LJM device-type constant for the T7. -/
def dtT7 : Nat := 7

/-- LJM device-type constant for the T8. -/
def dtT8 : Nat := 8

/-- LJM ground sentinel (`ljm.constants.GND`) used for single-ended wiring. -/
def GND : Nat := 199

/-- Device variants with thermocouple AIN_EF support, from the module
docstring of both source files: Thermocouple AIN_EF (T7/T8 only). -/
def supported_device_types : List Nat := [dtT7, dtT8]

/-- Error message tags standing for the Python exceptions the source can
raise: a dict lookup miss. -/
def keyError : String := "KeyError"

/-- Unpacking the None returned by set_cjc_slope_offset for non-K types. -/
def typeError : String := "TypeError"

/-- Reading a local variable that was never assigned (the fallthrough return
in get_channel_value_register). -/
def unboundLocalError : String := "UnboundLocalError"

/-- Model of the Python str.lower calls of the source: the inputs are ASCII
type and unit letters, on which Char.toLower agrees with Python. -/
def pyLower (s : String) : String :=
  String.mk (s.data.map Char.toLower)

/-- `create_analog_channel(channel)`: returns the string AIN{channel}. -/
def create_analog_channel (channel : Nat) : String :=
  "AIN" ++ toString channel

/-- `set_tc_index(tc_type)`: lowercases the type letter and looks it up in the
EF-index dict; a missing key is a Python KeyError, modelled as none. -/
def set_tc_index (tc_type : String) : Option Nat :=
  match pyLower tc_type with
  | "e" => some 20
  | "j" => some 21
  | "k" => some 22
  | "r" => some 23
  | "t" => some 24
  | "s" => some 25
  | "n" => some 27
  | "b" => some 28
  | "c" => some 30
  | _ => none

/-- `get_temp_unit_index(T_unit_name)`: lowercases and looks up in
the dict 0=K, 1=C, 2=F; a missing key is a KeyError, modelled as none. -/
def get_temp_unit_index (T_unit_name : String) : Option Nat :=
  match pyLower T_unit_name with
  | "k" => some 0
  | "c" => some 1
  | "f" => some 2
  | _ => none

/-- `set_cjc_slope_offset(tc_type)`: returns (1.0, 0.0) when the lowercased
type is k, otherwise prints a message and returns None (modelled as none);
the exact values 1.0 and 0.0 are represented exactly in Rat. -/
def set_cjc_slope_offset (tc_type : String) : Option (Rat × Rat) :=
  if pyLower tc_type = "k" then some (1, 0) else none

/-- `get_cjc_address(device_type, channel)`: 600 + 2*channel on the T8
(per-channel TEMPERATURE# registers), otherwise the fixed
TEMPERATURE_DEVICE_K address 60052. -/
def get_cjc_address (device_type : Nat) (channel : Nat) : Nat :=
  if device_type = dtT8 then 600 + 2 * channel else 60052

/-- Outcome of `get_channel_value_register`: the T7 branch assigns and writes
the negative-channel register; the T4 branch calls exit(0); any other device
type (the T8 included) reaches the return statement with neg_channel_value
and neg_channel_register never assigned, a Python UnboundLocalError. -/
inductive GcvrRes where
  | ok (negChannelValue : Nat) (negChannelRegister : String)
  | exitZero
  | unboundLocal
deriving DecidableEq, Repr

/-- `get_channel_value_register(handle, device_type, channel_name)`: the
result together with the list of register writes the call issues. -/
def get_channel_value_register (device_type : Nat) (channel_name : String) :
    GcvrRes × List (String × Rat) :=
  if device_type = dtT7 then
    (GcvrRes.ok GND (channel_name ++ "_NEGATIVE_CH"),
      [(channel_name ++ "_NEGATIVE_CH", (GND : Rat))])
  else if device_type = dtT4 then
    (GcvrRes.exitZero, [])
  else
    (GcvrRes.unboundLocal, [])

/-- One row of the `data` list built by the sampling loop of
`read_and_log_thermocouple`: the batched read values plus the elapsed
seconds since session start (the formatted wall-clock string carries no
further information than the clock value and is omitted). -/
structure SampleRecord where
  values : List Rat
  dt : Rat
deriving DecidableEq, Repr

/-- Terminal state of the sampling loop: the for-loop either runs to its
iteration bound or breaks out of the except-clause on the first failure. -/
inductive TermState where
  | Completed
  | Aborted (err : String)
deriving DecidableEq, Repr

/-- Result of the sampling loop: the accumulated records and how it ended. -/
structure LoopOut where
  records : List SampleRecord
  term : TermState
deriving DecidableEq, Repr

/-- Values of a successful batched read. -/
def okValues : Except String (List Rat) → List Rat
  | Except.ok v => v
  | Except.error _ => []

/-- The record tick i produces when its read succeeds: the read values,
stamped with elapsed seconds now(i) - start. -/
def mkRecord (read : Nat → Except String (List Rat)) (now : Nat → Rat)
    (start : Rat) (i : Nat) : SampleRecord :=
  ⟨okValues (read i), now i - start⟩

/-- The for-loop of `read_and_log_thermocouple` (lines 289-317): on tick i it
timestamps, issues the batched `ljm.eReadNames` read (the oracle `read i`),
appends the record, and waits for the next interval; any exception prints and
breaks, keeping the records accumulated so far. -/
def loopGo (read : Nat → Except String (List Rat)) (now : Nat → Rat)
    (start : Rat) : Nat → Nat → List SampleRecord → LoopOut
  | _, 0, acc => ⟨acc.reverse, TermState.Completed⟩
  | i, m + 1, acc =>
    match read i with
    | Except.error e => ⟨acc.reverse, TermState.Aborted e⟩
    | Except.ok vals => loopGo read now start (i + 1) m (⟨vals, now i - start⟩ :: acc)

/-- The whole sampling loop: ticks 0..num_iterations-1 starting from an empty
record list. -/
def samplingLoop (read : Nat → Except String (List Rat)) (now : Nat → Rat)
    (start : Rat) (num_iterations : Nat) : LoopOut :=
  loopGo read now start 0 num_iterations []

theorem loopGo_all_ok (read : Nat → Except String (List Rat)) (now : Nat → Rat)
    (start : Rat) :
    ∀ (m i : Nat) (acc : List SampleRecord),
      (∀ j, j < m → ∃ v, read (i + j) = Except.ok v) →
      loopGo read now start i m acc =
        ⟨acc.reverse ++ (List.range' i m).map (mkRecord read now start),
          TermState.Completed⟩ := by
  intro m
  induction m with
  | zero =>
    intro i acc _
    simp [loopGo]
  | succ m ih =>
    intro i acc h
    obtain ⟨v, hv⟩ := h 0 (Nat.succ_pos m)
    rw [Nat.add_zero] at hv
    have hstep : loopGo read now start i (m + 1) acc =
        loopGo read now start (i + 1) m (⟨v, now i - start⟩ :: acc) := by
      simp [loopGo, hv]
    have hsh : ∀ j, j < m → ∃ w, read (i + 1 + j) = Except.ok w := by
      intro j hj
      have := h (j + 1) (Nat.succ_lt_succ hj)
      simpa [Nat.add_comm, Nat.add_assoc, Nat.add_left_comm] using this
    rw [hstep, ih (i + 1) _ hsh]
    have hm : mkRecord read now start i = ⟨v, now i - start⟩ := by
      simp [mkRecord, okValues, hv]
    simp [List.range'_succ, hm, List.append_assoc]

theorem loopGo_fail_at (read : Nat → Except String (List Rat)) (now : Nat → Rat)
    (start : Rat) :
    ∀ (f m i : Nat) (acc : List SampleRecord) (e : String),
      f < m →
      (∀ j, j < f → ∃ v, read (i + j) = Except.ok v) →
      read (i + f) = Except.error e →
      loopGo read now start i m acc =
        ⟨acc.reverse ++ (List.range' i f).map (mkRecord read now start),
          TermState.Aborted e⟩ := by
  intro f
  induction f with
  | zero =>
    intro m i acc e hfm _ hfail
    rw [Nat.add_zero] at hfail
    cases m with
    | zero => exact absurd hfm (Nat.lt_irrefl 0)
    | succ m =>
      simp [loopGo, hfail]
  | succ f ih =>
    intro m i acc e hfm h hfail
    obtain ⟨v, hv⟩ := h 0 (Nat.succ_pos f)
    rw [Nat.add_zero] at hv
    cases m with
    | zero => exact absurd hfm (Nat.not_lt_zero _)
    | succ m =>
      have hstep : loopGo read now start i (m + 1) acc =
          loopGo read now start (i + 1) m (⟨v, now i - start⟩ :: acc) := by
        simp [loopGo, hv]
      have hsh : ∀ j, j < f → ∃ w, read (i + 1 + j) = Except.ok w := by
        intro j hj
        have := h (j + 1) (Nat.succ_lt_succ hj)
        simpa [Nat.add_comm, Nat.add_assoc, Nat.add_left_comm] using this
      have hfail2 : read (i + 1 + f) = Except.error e := by
        simpa [Nat.add_comm, Nat.add_assoc, Nat.add_left_comm] using hfail
      rw [hstep, ih m (i + 1) _ e (Nat.lt_of_succ_lt_succ hfm) hsh hfail2]
      have hm : mkRecord read now start i = ⟨v, now i - start⟩ := by
        simp [mkRecord, okValues, hv]
      simp [List.range'_succ, hm, List.append_assoc]

/-- The five AIN_EF register entries one channel contributes to
aNames/aValues in `configure_ain_ef_registers`: the EF index (thermocouple
type), CONFIG_A (temperature unit), CONFIG_B (CJC address), CONFIG_D (CJC
slope) and CONFIG_E (CJC offset). -/
def efGroup (tc_index temp_unit_index cjc_slope cjc_offset : Rat)
    (p : String × Rat) : List (String × Rat) :=
  [(p.1 ++ "_EF_INDEX", tc_index),
   (p.1 ++ "_EF_CONFIG_A", temp_unit_index),
   (p.1 ++ "_EF_CONFIG_B", p.2),
   (p.1 ++ "_EF_CONFIG_D", cjc_slope),
   (p.1 ++ "_EF_CONFIG_E", cjc_offset)]

/-- The loop of `configure_ain_ef_registers` (lines 146-173): aNames/aValues
accumulate across channels (`acc`), and every iteration calls
`ljm.eWriteNames` on the whole accumulated list; the result is the list of
successive write batches issued. -/
def configBatchesAux (tc_index temp_unit_index cjc_slope cjc_offset : Rat) :
    List (String × Rat) → List (String × Rat) → List (List (String × Rat))
  | _, [] => []
  | acc, p :: rest =>
    (acc ++ efGroup tc_index temp_unit_index cjc_slope cjc_offset p) ::
      configBatchesAux tc_index temp_unit_index cjc_slope cjc_offset
        (acc ++ efGroup tc_index temp_unit_index cjc_slope cjc_offset p) rest

/-- `configure_ain_ef_registers(...)`: zips the channel names with their CJC
addresses and iterates; returns the eWriteNames batches issued in order. -/
def configure_ain_ef_registers (channel_names : List String)
    (tc_index temp_unit_index : Rat) (cjc_addresses : List Rat)
    (cjc_slope cjc_offset : Rat) : List (List (String × Rat)) :=
  configBatchesAux tc_index temp_unit_index cjc_slope cjc_offset []
    (channel_names.zip cjc_addresses)

/-- The plan a list of (channel name, CJC address) pairs produces: the
concatenation of each channel's five-entry group, i.e. the final accumulated
aNames/aValues content of `configure_ain_ef_registers`. -/
def planOfPairs (tc_index temp_unit_index cjc_slope cjc_offset : Rat)
    (l : List (String × Rat)) : List (String × Rat) :=
  (l.map (efGroup tc_index temp_unit_index cjc_slope cjc_offset)).flatten

/-- The session's AIN_EF RegisterPlan for given channel names and CJC
addresses. -/
def efPlan (channel_names : List String) (tc_index temp_unit_index : Rat)
    (cjc_addresses : List Rat) (cjc_slope cjc_offset : Rat) :
    List (String × Rat) :=
  planOfPairs tc_index temp_unit_index cjc_slope cjc_offset
    (channel_names.zip cjc_addresses)

/-- The loop of `set_resolution_index_registers` over
zip(channel_names, channels): one eWriteName per channel. -/
def resolutionWritesGo : List (String × Nat) → List (String × Rat)
  | [] => []
  | (cn, c) :: rest =>
    (cn ++ "_RESOLUTION_INDEX", (c : Rat)) :: resolutionWritesGo rest

/-- `set_resolution_index_registers(...)`: writes AIN<n>_RESOLUTION_INDEX
with the channel number itself as the value, one write per channel. -/
def set_resolution_index_registers (channel_names : List String)
    (channels : List Nat) : List (String × Rat) :=
  resolutionWritesGo (channel_names.zip channels)

/-- The number of times a register of the given name is written across the
batches a configuration run issues. -/
def countWrites (batches : List (List (String × Rat))) (name : String) : Nat :=
  (batches.map (fun b => b.countP (fun e => decide (e.1 = name)))).sum

/-- How one call of `read_and_log_thermocouple` ends: a normal return, an
uncaught Python exception propagating out, or a process exit via exit(0). -/
inductive Outcome where
  | completed
  | raised (err : String)
  | exited
deriving DecidableEq, Repr

/-- What one call of `read_and_log_thermocouple` does: how it ends, the
sampling loop's terminal state when the loop was reached, the records
collected, every register write issued (in order), and whether the trailing
`ljm.cleanInterval` and `ljm.close` calls were reached. -/
structure RunResult where
  outcome : Outcome
  loopTerm : Option TermState
  records : List SampleRecord
  writes : List (String × Rat)
  intervalCleaned : Bool
  handleClosed : Bool
deriving DecidableEq, Repr

/-- Result of the per-channel negative-channel configuration loop
(lines 247-250): it completes, exits the process, or raises. -/
inductive ConfigStep where
  | ok (writes : List (String × Rat))
  | exited (writes : List (String × Rat))
  | raised (err : String) (writes : List (String × Rat))
deriving DecidableEq, Repr

/-- The loop calling `get_channel_value_register` once per channel name,
accumulating the writes issued and stopping at a process exit or an
unbound-local error. -/
def negChannelLoop (device_type : Nat) :
    List String → List (String × Rat) → ConfigStep
  | [], ws => ConfigStep.ok ws
  | name :: rest, ws =>
    match get_channel_value_register device_type name with
    | (GcvrRes.ok _ _, w) => negChannelLoop device_type rest (ws ++ w)
    | (GcvrRes.exitZero, w) => ConfigStep.exited (ws ++ w)
    | (GcvrRes.unboundLocal, w) => ConfigStep.raised unboundLocalError (ws ++ w)

/-- `read_and_log_thermocouple(...)` (lines 199-340): opens the handle,
resolves the type index, the CJC slope/offset and the unit index (each a
possible configuration-time exception), runs the negative-channel loop, the
resolution-index writes, the accumulated AIN_EF batches, then the sampling
loop; the trailing cleanInterval/close calls stand after the save block with
no try/finally, so only a run that reaches the loop performs them — the
loop's except-and-break still falls through to them. -/
def read_and_log_thermocouple (device_type : Nat) (channels : List Nat)
    (tc_type temp_unit : String) (read : Nat → Except String (List Rat))
    (now : Nat → Rat) (start : Rat) (num_iterations : Nat) : RunResult :=
  match set_tc_index tc_type with
  | none => ⟨Outcome.raised keyError, none, [], [], false, false⟩
  | some tc_index =>
    match set_cjc_slope_offset tc_type with
    | none => ⟨Outcome.raised typeError, none, [], [], false, false⟩
    | some cjc =>
      match get_temp_unit_index temp_unit with
      | none => ⟨Outcome.raised keyError, none, [], [], false, false⟩
      | some temp_unit_index =>
        let channel_names := channels.map create_analog_channel
        match negChannelLoop device_type channel_names [] with
        | ConfigStep.exited ws => ⟨Outcome.exited, none, [], ws, false, false⟩
        | ConfigStep.raised e ws => ⟨Outcome.raised e, none, [], ws, false, false⟩
        | ConfigStep.ok ws =>
          let cjc_addresses := (channels.map (get_cjc_address device_type)).map
            (fun a => (a : Rat))
          let resWrites := set_resolution_index_registers channel_names channels
          let batches := configure_ain_ef_registers channel_names (tc_index : Rat)
            (temp_unit_index : Rat) cjc_addresses cjc.1 cjc.2
          let out := samplingLoop read now start num_iterations
          ⟨Outcome.completed, some out.term, out.records,
            ws ++ resWrites ++ batches.flatten, true, true⟩

end Kimlab

namespace Kimlab

/-- C1: for every thermocouple type in {E,J,R,T,S,N,B,C}, resolving the CJC
slope and offset yields the explicit unsupported condition (none, the model
of the message-and-return-None branch), never K's values; for type K it
yields slope 1.0 and offset 0.0. -/
theorem cjc_slope_offset_only_type_K :
    set_cjc_slope_offset "E" = none ∧ set_cjc_slope_offset "J" = none ∧
    set_cjc_slope_offset "R" = none ∧ set_cjc_slope_offset "T" = none ∧
    set_cjc_slope_offset "S" = none ∧ set_cjc_slope_offset "N" = none ∧
    set_cjc_slope_offset "B" = none ∧ set_cjc_slope_offset "C" = none ∧
    set_cjc_slope_offset "K" = some (1, 0) ∧
    set_cjc_slope_offset "k" = some (1, 0) := by
  decide

/-- C3: CJC address resolution returns BASE_PER_CHANNEL + 2*c (600 + 2*c) on
the T8 (Variant A, per-channel temperature sensors) and the fixed
FIXED_DEVICE_TEMP_ADDRESS 60052 on the T7 (Variant B), independent of the
channel. -/
theorem cjc_address_by_variant (c : Nat) :
    get_cjc_address dtT8 c = 600 + 2 * c ∧
    get_cjc_address dtT7 c = 60052 ∧
    get_cjc_address dtT7 c = get_cjc_address dtT7 0 := by
  refine ⟨?_, ?_, ?_⟩ <;> simp [get_cjc_address, dtT7, dtT8]

/-- C7: with a finite iteration bound n and no read failure, the sampling
loop produces exactly n SampleRecords, in read order (record i holds the
values of read i), with strictly increasing elapsed-seconds values, the
clock being strictly monotone across the session's ticks. -/
theorem sampling_loop_completes_n_records (read : Nat → Except String (List Rat))
    (now : Nat → Rat) (start : Rat) (n : Nat)
    (hok : ∀ i, i < n → ∃ v, read i = Except.ok v)
    (hmono : ∀ i j, i < j → j < n → now i < now j) :
    (samplingLoop read now start n).records =
      (List.range n).map (mkRecord read now start) ∧
    (samplingLoop read now start n).records.length = n ∧
    (samplingLoop read now start n).term = TermState.Completed ∧
    ((samplingLoop read now start n).records.map (fun r => r.dt)).Pairwise
      (fun a b => a < b) := by
  have h := loopGo_all_ok read now start n 0 []
    (by intro j hj; simpa using hok j hj)
  have hrec : (samplingLoop read now start n).records =
      (List.range n).map (mkRecord read now start) := by
    simp [samplingLoop, h, List.range_eq_range']
  refine ⟨hrec, ?_, ?_, ?_⟩
  · rw [hrec]; simp
  · simp [samplingLoop, h]
  · rw [hrec, List.map_map, List.pairwise_map]
    have hp : (List.range n).Pairwise (fun a b => a < b) := List.pairwise_lt_range n
    refine hp.imp_of_mem ?_
    intro a b _ hb hab
    have hbn : b < n := List.mem_range.mp hb
    have hlt := hmono a b hab hbn
    simpa [mkRecord] using sub_lt_sub_right hlt start

/-- C7 witness: five successful reads at cadence-one clock times give five
records and a Completed session. -/
theorem sampling_loop_completes_n_records_witness :
    (samplingLoop (fun _ => Except.ok [20]) (fun i => (i : Rat)) 0 5).records.length = 5 ∧
    (samplingLoop (fun _ => Except.ok [20]) (fun i => (i : Rat)) 0 5).term =
      TermState.Completed := by
  have h := sampling_loop_completes_n_records (fun _ => Except.ok [20])
    (fun i => (i : Rat)) 0 5 (fun i _ => ⟨[20], rfl⟩)
    (by intro i j hij _; show (i : Rat) < (j : Rat); exact_mod_cast hij)
  exact ⟨h.2.1, h.2.2.1⟩

/-- C2: if the batched read fails on tick k (1-indexed) of a session with
iteration bound n > k, the loop ends Aborted with the failing read's error,
and the output is exactly the k-1 records of the earlier ticks, in order,
none discarded. -/
theorem sampling_loop_abort_preserves_records (read : Nat → Except String (List Rat))
    (now : Nat → Rat) (start : Rat) (n k : Nat) (e : String)
    (_hk : 1 ≤ k) (hkn : k < n)
    (hok : ∀ i, i < k - 1 → ∃ v, read i = Except.ok v)
    (hfail : read (k - 1) = Except.error e) :
    (samplingLoop read now start n).term = TermState.Aborted e ∧
    (samplingLoop read now start n).records =
      (List.range (k - 1)).map (mkRecord read now start) ∧
    (samplingLoop read now start n).records.length = k - 1 := by
  have hlt : k - 1 < n := lt_of_le_of_lt (Nat.sub_le k 1) hkn
  have h := loopGo_fail_at read now start (k - 1) n 0 [] e hlt
    (by intro j hj; simpa using hok j hj) (by simpa using hfail)
  refine ⟨?_, ?_, ?_⟩
  · simp [samplingLoop, h]
  · simp [samplingLoop, h, List.range_eq_range']
  · simp [samplingLoop, h]

/-- C2 witness: a session of bound 5 whose read fails on tick 3 aborts with
that error and returns exactly the 2 earlier records. -/
theorem sampling_loop_abort_preserves_records_witness :
    (samplingLoop (fun i => if i < 2 then Except.ok [20] else Except.error "read failed")
      (fun i => (i : Rat)) 0 5).term = TermState.Aborted "read failed" ∧
    (samplingLoop (fun i => if i < 2 then Except.ok [20] else Except.error "read failed")
      (fun i => (i : Rat)) 0 5).records.length = 2 := by
  have h := sampling_loop_abort_preserves_records
    (fun i => if i < 2 then Except.ok [20] else Except.error "read failed")
    (fun i => (i : Rat)) 0 5 3 "read failed" (by decide) (by decide)
    (by
      intro i hi
      refine ⟨[20], ?_⟩
      have h2 : i < 2 := by omega
      simp [h2])
    (by simp)
  exact ⟨h.1, h.2.2⟩

theorem string_append_right_cancel (a b s : String) (h : a ++ s = b ++ s) :
    a = b := by
  have hd : a.data ++ s.data = b.data ++ s.data := by
    have hq := congrArg String.data h
    simpa [String.data_append] using hq
  exact String.ext (List.append_cancel_right hd)

theorem string_append_ne_of_last_ne (a b s t : String) (cs ct : Char)
    (hs : s.data.getLast? = some cs) (ht : t.data.getLast? = some ct)
    (hne : cs ≠ ct) : a ++ s ≠ b ++ t := by
  intro h
  have hd : a.data ++ s.data = b.data ++ t.data := by
    have hq := congrArg String.data h
    simpa [String.data_append] using hq
  have h1 : (a.data ++ s.data).getLast? = some cs := by
    rw [List.getLast?_append, hs]; rfl
  have h2 : (b.data ++ t.data).getLast? = some ct := by
    rw [List.getLast?_append, ht]; rfl
  rw [hd, h2] at h1
  exact hne (Option.some.inj h1).symm

theorem length_planOfPairs (t u s o : Rat) (l : List (String × Rat)) :
    (planOfPairs t u s o l).length = 5 * l.length := by
  induction l with
  | nil => simp [planOfPairs]
  | cons p rest ih =>
    simp only [planOfPairs, List.map_cons, List.flatten_cons, List.length_append,
      List.length_cons] at ih ⊢
    simp only [efGroup, List.length_cons, List.length_nil]
    omega

theorem planOfPairs_take (t u s o : Rat) :
    ∀ (l : List (String × Rat)) (k : Nat),
      planOfPairs t u s o (l.take k) = (planOfPairs t u s o l).take (5 * k) := by
  intro l
  induction l with
  | nil => intro k; simp [planOfPairs]
  | cons p rest ih =>
    intro k
    cases k with
    | zero => simp [planOfPairs]
    | succ k =>
      simp only [List.take_succ_cons, planOfPairs, List.map_cons, List.flatten_cons]
      rw [List.take_append_eq_append_take]
      have hlen : (efGroup t u s o p).length = 5 := by simp [efGroup]
      rw [List.take_of_length_le (by omega : (efGroup t u s o p).length ≤ 5 * (k + 1)),
        hlen, show 5 * (k + 1) - 5 = 5 * k by omega]
      have hrest := ih k
      simp only [planOfPairs] at hrest
      rw [hrest]

theorem configBatchesAux_eq (t u s o : Rat) :
    ∀ (l : List (String × Rat)) (acc : List (String × Rat)),
      configBatchesAux t u s o acc l =
        (List.range l.length).map
          (fun i => acc ++ planOfPairs t u s o (l.take (i + 1))) := by
  intro l
  induction l with
  | nil => intro acc; simp [configBatchesAux]
  | cons p rest ih =>
    intro acc
    simp only [configBatchesAux, List.length_cons]
    rw [ih, List.range_succ_eq_map, List.map_cons, List.map_map]
    refine congrArg₂ List.cons ?_ (List.map_congr_left ?_)
    · simp [planOfPairs]
    · intro i _
      simp [planOfPairs, List.append_assoc, Function.comp, List.take_succ_cons]

theorem countP_efGroup (t u s o : Rat) (p : String × Rat) (c : String) :
    (efGroup t u s o p).countP (fun e => decide (e.1 = c ++ "_EF_INDEX")) =
      if p.1 = c then 1 else 0 := by
  have hA : p.1 ++ "_EF_CONFIG_A" ≠ c ++ "_EF_INDEX" :=
    string_append_ne_of_last_ne _ _ _ _ 'A' 'X' (by decide) (by decide) (by decide)
  have hB : p.1 ++ "_EF_CONFIG_B" ≠ c ++ "_EF_INDEX" :=
    string_append_ne_of_last_ne _ _ _ _ 'B' 'X' (by decide) (by decide) (by decide)
  have hD : p.1 ++ "_EF_CONFIG_D" ≠ c ++ "_EF_INDEX" :=
    string_append_ne_of_last_ne _ _ _ _ 'D' 'X' (by decide) (by decide) (by decide)
  have hE : p.1 ++ "_EF_CONFIG_E" ≠ c ++ "_EF_INDEX" :=
    string_append_ne_of_last_ne _ _ _ _ 'E' 'X' (by decide) (by decide) (by decide)
  have hI : (p.1 ++ "_EF_INDEX" = c ++ "_EF_INDEX") ↔ p.1 = c :=
    ⟨fun h => string_append_right_cancel _ _ _ h, fun h => by rw [h]⟩
  simp only [efGroup, List.countP_cons, List.countP_nil]
  by_cases h : p.1 = c
  · rw [h] at hA hB hD hE
    simp [hA, hB, hD, hE, hI, h]
  · simp [hA, hB, hD, hE, hI, h]

theorem countP_planOfPairs (t u s o : Rat) (c : String) :
    ∀ l : List (String × Rat),
      (planOfPairs t u s o l).countP (fun e => decide (e.1 = c ++ "_EF_INDEX")) =
        l.countP (fun p => decide (p.1 = c)) := by
  intro l
  induction l with
  | nil => simp [planOfPairs]
  | cons p rest ih =>
    simp only [planOfPairs, List.map_cons, List.flatten_cons, List.countP_append,
      List.countP_cons] at ih ⊢
    rw [countP_efGroup]
    by_cases h : p.1 = c
    · simp [h, ih, Nat.add_comm]
    · simp [h, ih]

theorem countP_zip_fst_zero (c : String) :
    ∀ (names : List String) (addrs : List Rat), c ∉ names →
      (names.zip addrs).countP (fun p => decide (p.1 = c)) = 0 := by
  intro names
  induction names with
  | nil => intro addrs _; simp
  | cons nm rest ih =>
    intro addrs hc
    cases addrs with
    | nil => simp
    | cons a arest =>
      have h1 : nm ≠ c := fun h => hc (h ▸ List.mem_cons_self nm rest)
      simp only [List.zip_cons_cons, List.countP_cons]
      rw [ih arest (fun h => hc (List.mem_cons_of_mem _ h))]
      simp [h1]

theorem countP_take_zip (c : String) :
    ∀ (names : List String) (addrs : List Rat) (j k : Nat),
      names.Nodup → names.length = addrs.length → names[j]? = some c →
      ((names.zip addrs).take k).countP (fun p => decide (p.1 = c)) =
        if j < k then 1 else 0 := by
  intro names
  induction names with
  | nil => intro addrs j k _ _ hj; simp at hj
  | cons nm rest ih =>
    intro addrs j k hnd hlen hj
    cases addrs with
    | nil => simp at hlen
    | cons a arest =>
      have hlen2 : rest.length = arest.length := by simpa using hlen
      have hnd2 : rest.Nodup := hnd.of_cons
      have hnm : nm ∉ rest := (List.nodup_cons.mp hnd).1
      cases k with
      | zero => simp
      | succ k =>
        simp only [List.zip_cons_cons, List.take_succ_cons, List.countP_cons]
        cases j with
        | zero =>
          have hc : nm = c := by simpa using hj
          subst hc
          have hle := (List.take_sublist k (rest.zip arest)).countP_le
            (fun p => decide (p.1 = nm))
          have hz := countP_zip_fst_zero nm rest arest hnm
          have hzero : ((rest.zip arest).take k).countP
              (fun p => decide (p.1 = nm)) = 0 := by omega
          simp [hzero]
        | succ j =>
          have hj2 : rest[j]? = some c := by simpa using hj
          have hcne : nm ≠ c := by
            intro h; subst h; exact hnm (List.getElem?_mem hj2)
          rw [ih arest j k hnd2 hlen2 hj2]
          simp [hcne, Nat.succ_lt_succ_iff]

theorem sum_if_threshold (j : Nat) :
    ∀ m : Nat,
      ((List.range m).map (fun i => if j < i + 1 then 1 else 0)).sum = m - j := by
  intro m
  induction m with
  | zero => simp
  | succ m ih =>
    rw [List.range_succ, List.map_append, List.sum_append, ih]
    by_cases h : j < m + 1
    · simp [h]; omega
    · simp [h]; omega

/-- C6: the register plan built for channels [0,2], type K (EF index 22),
unit C (unit index 1) on the T8 (Variant A CJC addresses 600 and 604)
contains exactly these 10 extended-function entries, 5 per channel, with the
channel number substituted into each name and no entries for any other
channel; it is the content of the last accumulated eWriteNames batch. -/
theorem register_plan_channels_0_2 :
    efPlan ([0, 2].map create_analog_channel) 22 1
        (([0, 2].map (get_cjc_address dtT8)).map (fun a => (a : Rat))) 1 0 =
      [("AIN0_EF_INDEX", 22), ("AIN0_EF_CONFIG_A", 1), ("AIN0_EF_CONFIG_B", 600),
       ("AIN0_EF_CONFIG_D", 1), ("AIN0_EF_CONFIG_E", 0),
       ("AIN2_EF_INDEX", 22), ("AIN2_EF_CONFIG_A", 1), ("AIN2_EF_CONFIG_B", 604),
       ("AIN2_EF_CONFIG_D", 1), ("AIN2_EF_CONFIG_E", 0)] ∧
    (configure_ain_ef_registers ([0, 2].map create_analog_channel) 22 1
        (([0, 2].map (get_cjc_address dtT8)).map (fun a => (a : Rat))) 1 0).getLast? =
      some (efPlan ([0, 2].map create_analog_channel) 22 1
        (([0, 2].map (get_cjc_address dtT8)).map (fun a => (a : Rat))) 1 0) ∧
    set_tc_index "k" = some 22 ∧ get_temp_unit_index "C" = some 1 := by
  decide

/-- C8: for every configured channel, the resolution-index write sets the
register AIN<n>_RESOLUTION_INDEX to the channel's own numeric value n. -/
theorem resolution_index_set_to_channel_number (channels : List Nat)
    (j : Nat) (c : Nat) (hc : channels[j]? = some c) :
    (set_resolution_index_registers (channels.map create_analog_channel)
        channels)[j]? =
      some (create_analog_channel c ++ "_RESOLUTION_INDEX", (c : Rat)) := by
  induction channels generalizing j with
  | nil => simp at hc
  | cons a rest ih =>
    cases j with
    | zero =>
      simp only [List.getElem?_cons_zero, Option.some.injEq] at hc
      subst hc
      simp [set_resolution_index_registers, resolutionWritesGo]
    | succ j =>
      simp only [List.getElem?_cons_succ] at hc
      have h := ih j hc
      simpa [set_resolution_index_registers, resolutionWritesGo] using h

/-- C8 witness: for channels [0,2], the second resolution-index write is
AIN2_RESOLUTION_INDEX set to 2. -/
theorem resolution_index_set_to_channel_number_witness :
    (set_resolution_index_registers ([0, 2].map create_analog_channel)
        [0, 2])[1]? =
      some (create_analog_channel 2 ++ "_RESOLUTION_INDEX", (2 : Rat)) :=
  resolution_index_set_to_channel_number [0, 2] 1 2 rfl

/-- C10: configure_ain_ef_registers issues its batched write inside the
per-channel loop over the growing accumulated list: with m configured
channels, batch i (0-indexed here) is the first 5*(i+1) entries of the full
register plan, so it writes 5*(i+1) entries; and the EF_INDEX register of
the channel at position j is written in every batch from the j-th on, i.e.
m - j times for the 0-indexed j (m - j + 1 times 1-indexed), with identical
values each time, rather than the plan being applied once per register. -/
theorem batched_writes_grow_per_channel (names : List String) (addrs : List Rat)
    (t u s o : Rat) (hlen : names.length = addrs.length) (hnd : names.Nodup) :
    (configure_ain_ef_registers names t u addrs s o).length = names.length ∧
    (∀ i, i < names.length →
      (configure_ain_ef_registers names t u addrs s o)[i]? =
        some ((efPlan names t u addrs s o).take (5 * (i + 1))) ∧
      ((efPlan names t u addrs s o).take (5 * (i + 1))).length = 5 * (i + 1)) ∧
    (∀ j c, names[j]? = some c →
      countWrites (configure_ain_ef_registers names t u addrs s o)
        (c ++ "_EF_INDEX") = names.length - j) := by
  have hzlen : (names.zip addrs).length = names.length := by
    rw [List.length_zip, hlen, Nat.min_self]
  have hb : configure_ain_ef_registers names t u addrs s o =
      (List.range names.length).map
        (fun i => planOfPairs t u s o ((names.zip addrs).take (i + 1))) := by
    rw [configure_ain_ef_registers, configBatchesAux_eq, hzlen]
    simp
  refine ⟨?_, ?_, ?_⟩
  · rw [hb]; simp
  · intro i hi
    constructor
    · rw [hb, List.getElem?_map]
      have hr : (List.range names.length)[i]? = some i := by simp [hi]
      rw [hr]
      simp [planOfPairs_take, efPlan]
    · rw [List.length_take, efPlan, length_planOfPairs, hzlen]
      exact Nat.min_eq_left (by omega)
  · intro j c hj
    have hjlt : j < names.length := by
      by_contra hcon
      push_neg at hcon
      rw [List.getElem?_eq_none hcon] at hj
      exact Option.noConfusion hj
    rw [hb, countWrites, List.map_map]
    have heq : (List.range names.length).map
        ((fun b => List.countP (fun e => decide (e.1 = c ++ "_EF_INDEX")) b) ∘
          (fun i => planOfPairs t u s o ((names.zip addrs).take (i + 1)))) =
        (List.range names.length).map (fun i => if j < i + 1 then 1 else 0) := by
      refine List.map_congr_left ?_
      intro i _
      have h1 := countP_planOfPairs t u s o c ((names.zip addrs).take (i + 1))
      have h2 := countP_take_zip c names addrs j (i + 1) hnd hlen hj
      simpa [Function.comp, h1] using h2
    rw [heq, sum_if_threshold]

/-- C10 witness: for the two channels AIN0 and AIN2 the configuration issues
two batches of 5 and 10 entries, writing AIN0_EF_INDEX twice and
AIN2_EF_INDEX once. -/
theorem batched_writes_grow_per_channel_witness :
    (configure_ain_ef_registers ["AIN0", "AIN2"] 22 1 [600, 604] 1 0).length = 2 ∧
    countWrites (configure_ain_ef_registers ["AIN0", "AIN2"] 22 1 [600, 604] 1 0)
      ("AIN0" ++ "_EF_INDEX") = 2 ∧
    countWrites (configure_ain_ef_registers ["AIN0", "AIN2"] 22 1 [600, 604] 1 0)
      ("AIN2" ++ "_EF_INDEX") = 1 := by
  have h := batched_writes_grow_per_channel ["AIN0", "AIN2"] [600, 604] 22 1 1 0
    (by decide) (by decide)
  exact ⟨h.1, by simpa using h.2.2 0 "AIN0" rfl, by simpa using h.2.2 1 "AIN2" rfl⟩

/-- C4 evaluated at a failing input: on a T7 with thermocouple type e — a
valid type whose CJC slope/offset resolution returns None — the tuple
unpacking raises before the loop and the trailing cleanInterval/close calls
(not in a finally block) never run; on a T4 the process exits with the
handle still open; only runs that reach the loop (such as type k on a T7)
release both resources. -/
theorem cleanup_skipped_on_configuration_error :
    ((read_and_log_thermocouple dtT7 [0] "e" "C" (fun _ => Except.ok [20])
        (fun i => (i : Rat)) 0 5).outcome = Outcome.raised typeError ∧
      (read_and_log_thermocouple dtT7 [0] "e" "C" (fun _ => Except.ok [20])
        (fun i => (i : Rat)) 0 5).handleClosed = false ∧
      (read_and_log_thermocouple dtT7 [0] "e" "C" (fun _ => Except.ok [20])
        (fun i => (i : Rat)) 0 5).intervalCleaned = false) ∧
    ((read_and_log_thermocouple dtT4 [0] "k" "C" (fun _ => Except.ok [20])
        (fun i => (i : Rat)) 0 5).outcome = Outcome.exited ∧
      (read_and_log_thermocouple dtT4 [0] "k" "C" (fun _ => Except.ok [20])
        (fun i => (i : Rat)) 0 5).handleClosed = false) ∧
    ((read_and_log_thermocouple dtT7 [0] "k" "C" (fun _ => Except.ok [20])
        (fun i => (i : Rat)) 0 5).handleClosed = true ∧
      (read_and_log_thermocouple dtT7 [0] "k" "C" (fun _ => Except.ok [20])
        (fun i => (i : Rat)) 0 5).intervalCleaned = true) := by
  decide

/-- C5: requesting configuration on the T4 — the variant without
thermocouple AIN_EF support — surfaces the unsupported-device condition (the
print-and-exit branch) at the first channel, before any register write is
attempted: the run issues zero writes, collects no records, and never
reaches the sampling loop. -/
theorem unsupported_device_exits_before_any_write (channels : List Nat)
    (c0 : Nat) (cs : List Nat) (hch : channels = c0 :: cs)
    (tc_type temp_unit : String)
    (h1 : (set_tc_index tc_type).isSome = true)
    (h2 : (set_cjc_slope_offset tc_type).isSome = true)
    (h3 : (get_temp_unit_index temp_unit).isSome = true)
    (read : Nat → Except String (List Rat)) (now : Nat → Rat) (start : Rat)
    (n : Nat) :
    (read_and_log_thermocouple dtT4 channels tc_type temp_unit read now
        start n).outcome = Outcome.exited ∧
    (read_and_log_thermocouple dtT4 channels tc_type temp_unit read now
        start n).writes = [] ∧
    (read_and_log_thermocouple dtT4 channels tc_type temp_unit read now
        start n).records = [] ∧
    (read_and_log_thermocouple dtT4 channels tc_type temp_unit read now
        start n).loopTerm = none := by
  subst hch
  obtain ⟨ti, hti⟩ := Option.isSome_iff_exists.mp h1
  obtain ⟨cj, hcj⟩ := Option.isSome_iff_exists.mp h2
  obtain ⟨ui, hui⟩ := Option.isSome_iff_exists.mp h3
  have hg : get_channel_value_register dtT4 (create_analog_channel c0) =
      (GcvrRes.exitZero, []) := by
    simp [get_channel_value_register, dtT4, dtT7]
  have hneg : negChannelLoop dtT4
      (create_analog_channel c0 :: cs.map create_analog_channel) [] =
      ConfigStep.exited [] := by
    simp [negChannelLoop, hg]
  simp [read_and_log_thermocouple, hti, hcj, hui, hneg]

/-- C5 witness: a T4 run with channel 0, type k, unit C issues no writes and
exits. -/
theorem unsupported_device_exits_before_any_write_witness :
    (read_and_log_thermocouple dtT4 [0] "k" "C" (fun _ => Except.ok [20])
        (fun i => (i : Rat)) 0 5).writes = [] ∧
    (read_and_log_thermocouple dtT4 [0] "k" "C" (fun _ => Except.ok [20])
        (fun i => (i : Rat)) 0 5).outcome = Outcome.exited := by
  have h := unsupported_device_exits_before_any_write [0] 0 [] rfl "k" "C"
    (by decide) (by decide) (by decide) (fun _ => Except.ok [20])
    (fun i => (i : Rat)) 0 5
  exact ⟨h.2.1, h.1⟩

/-- C9: on the T8 neither conditional branch of get_channel_value_register
executes — it issues no write and reaches its return with the
negative-channel locals never assigned — so a configuration run on a T8
raises the unbound-local error (before releasing any resource), even though
the T8 is a supported variant per the module docstring. -/
theorem t8_unbound_local_on_configuration (name : String) (channels : List Nat)
    (c0 : Nat) (cs : List Nat) (hch : channels = c0 :: cs)
    (tc_type temp_unit : String)
    (h1 : (set_tc_index tc_type).isSome = true)
    (h2 : (set_cjc_slope_offset tc_type).isSome = true)
    (h3 : (get_temp_unit_index temp_unit).isSome = true)
    (read : Nat → Except String (List Rat)) (now : Nat → Rat) (start : Rat)
    (n : Nat) :
    get_channel_value_register dtT8 name = (GcvrRes.unboundLocal, []) ∧
    (read_and_log_thermocouple dtT8 channels tc_type temp_unit read now
        start n).outcome = Outcome.raised unboundLocalError ∧
    (read_and_log_thermocouple dtT8 channels tc_type temp_unit read now
        start n).records = [] ∧
    dtT8 ∈ supported_device_types := by
  subst hch
  obtain ⟨ti, hti⟩ := Option.isSome_iff_exists.mp h1
  obtain ⟨cj, hcj⟩ := Option.isSome_iff_exists.mp h2
  obtain ⟨ui, hui⟩ := Option.isSome_iff_exists.mp h3
  have hg : ∀ nm, get_channel_value_register dtT8 nm =
      (GcvrRes.unboundLocal, []) := by
    intro nm
    simp [get_channel_value_register, dtT4, dtT7, dtT8]
  have hneg : negChannelLoop dtT8
      (create_analog_channel c0 :: cs.map create_analog_channel) [] =
      ConfigStep.raised unboundLocalError [] := by
    simp [negChannelLoop, hg]
  refine ⟨hg name, ?_, ?_, by decide⟩
  · simp [read_and_log_thermocouple, hti, hcj, hui, hneg]
  · simp [read_and_log_thermocouple, hti, hcj, hui, hneg]

/-- C9 witness: the T8 run with channel 0, type k, unit C raises the
unbound-local error with no branch of get_channel_value_register taken. -/
theorem t8_unbound_local_on_configuration_witness :
    get_channel_value_register dtT8 "AIN0" = (GcvrRes.unboundLocal, []) ∧
    (read_and_log_thermocouple dtT8 [0] "k" "C" (fun _ => Except.ok [20])
        (fun i => (i : Rat)) 0 5).outcome = Outcome.raised unboundLocalError := by
  have h := t8_unbound_local_on_configuration "AIN0" [0] 0 [] rfl "k" "C"
    (by decide) (by decide) (by decide) (fun _ => Except.ok [20])
    (fun i => (i : Rat)) 0 5
  exact ⟨h.1, h.2.1⟩

end Kimlab
